import Mathlib

/-
Shallow embedding of src/src/processor/basic_source_line_resolver.cc
(breakpad symbol resolver core).  Machine integers (uint64_t) are
modelled as Nat with explicit reduction mod 2^64 at the arithmetic
operations where the C code can wrap; buffers and C strings are
modelled as List Char with the NUL byte as the character value 0.
External collaborators that are not part of this repository's source
(ContainedRangeMap / AddressMap containers, libc strtol family, the
Tokenize helper, the WindowsFrameInfo / CFIFrameInfo rule parsers) are
modelled from the specification's description of their contracts; each
such definition carries a doc comment saying so.
-/

namespace google_breakpad

def U64 : Nat := 2 ^ 64

/-- Constants from common/dwarf/dwarf2enums.h (the standard DWARF
operation encodings; the header is external to this repository's src). -/
def DW_OP_addr : Nat := 0x03

def DW_OP_deref : Nat := 0x06

def DW_OP_const1u : Nat := 0x08

def DW_OP_const1s : Nat := 0x09

def DW_OP_const2u : Nat := 0x0a

def DW_OP_const2s : Nat := 0x0b

def DW_OP_const4u : Nat := 0x0c

def DW_OP_const4s : Nat := 0x0d

def DW_OP_const8u : Nat := 0x0e

def DW_OP_const8s : Nat := 0x0f

def DW_OP_dup : Nat := 0x12

def DW_OP_drop : Nat := 0x13

def DW_OP_over : Nat := 0x14

def DW_OP_pick : Nat := 0x15

def DW_OP_swap : Nat := 0x16

def DW_OP_rot : Nat := 0x17

def DW_OP_xderef : Nat := 0x18

def DW_OP_lit0 : Nat := 0x30

def DW_OP_lit31 : Nat := 0x4f

def DW_OP_reg0 : Nat := 0x50

def DW_OP_reg31 : Nat := 0x6f

def DW_OP_breg0 : Nat := 0x70

def DW_OP_breg31 : Nat := 0x8f

def DW_OP_regX : Nat := 0x90

def DW_OP_fbreg : Nat := 0x91

def DW_OP_deref_size : Nat := 0x94

def DW_OP_xderef_size : Nat := 0x95

/-- One DWARF-style location operation (struct ArgLocInfo): an opcode
byte and two auxiliary uint64 values.  `op` is an unsigned char in the
source; all stored values are < 256 resp. < 2^64. -/
structure ArgLocInfo where
  op : Nat
  locValue1 : Nat
  locValue2 : Nat
deriving DecidableEq

/-- A function parameter as parsed from a FUNC record
(struct FuncParam). -/
structure FuncParam where
  typeName : List Char
  typeSize : Nat
  paramName : List Char
  locs : List ArgLocInfo
deriving DecidableEq

/-- The consumed view of a StackFrame: frame base and per-register
values (StackFrame::GetFrameBase / GetRegValue, external interface;
both return uint64). -/
structure FrameCtx where
  getFrameBase : Nat
  getRegValue : Nat → Nat

/-- The consumed memory view (MemoryRegion::GetMemoryAtAddress): an
8-byte little-endian read and a 1-byte read, each may fail. -/
structure MemView where
  read8 : Nat → Option Nat
  read1 : Nat → Option Nat

/-- Evaluator state: the value stack `s` (head of the list is the top,
i.e. the `back()` of the C++ vector) and the scratch variable `val`.
`val` is declared uninitialized in the source, so the initial scratch
content is threaded in as an explicit parameter by the caller. -/
structure EvalState where
  s : List Nat
  val : Nat
deriving DecidableEq

/-- Sign extension of the low `bytes` bytes of `v` into a uint64
(the (char)/(short)/(int) casts of the const1s/const2s/const4s
branches). -/
def signExtend (bytes : Nat) (v : Nat) : Nat :=
  let m := v % 2 ^ (8 * bytes)
  if m < 2 ^ (8 * bytes - 1) then m else m + (U64 - 2 ^ (8 * bytes))

/-- One iteration of the loop of EvaluateDwarfExpression
(basic_source_line_resolver.cc lines 210-322).  Returns none for the
`return 0` failure paths.  Note that the source pushes `val` at the
end of every iteration (line 321), also after the pure stack
operations (which leave `val` unchanged) and after an opcode that
matches no branch of the if/else chain. -/
def evalStep (fr : FrameCtx) (mem : MemView) (st : EvalState) (ai : ArgLocInfo) :
    Option EvalState :=
  let op := ai.op
  if DW_OP_reg0 ≤ op ∧ op ≤ DW_OP_reg31 then
    let v := fr.getRegValue (op - DW_OP_reg0)
    some ⟨v :: st.s, v⟩
  else if op = DW_OP_fbreg then
    let v := (fr.getFrameBase + ai.locValue1) % U64
    some ⟨v :: st.s, v⟩
  else if op = DW_OP_addr then
    some ⟨ai.locValue1 :: st.s, ai.locValue1⟩
  else if op = DW_OP_regX then
    let v := fr.getRegValue ai.locValue1
    some ⟨v :: st.s, v⟩
  else if DW_OP_breg0 ≤ op ∧ op ≤ DW_OP_breg31 then
    let v := (fr.getRegValue (op - DW_OP_breg0) + ai.locValue1) % U64
    some ⟨v :: st.s, v⟩
  else if op = DW_OP_deref then
    match st.s with
    | [] => none
    | a :: rest =>
      match mem.read8 a with
      | none => none
      | some v => some ⟨v :: rest, v⟩
  else if DW_OP_lit0 ≤ op ∧ op ≤ DW_OP_lit31 then
    let v := op - DW_OP_lit0
    some ⟨v :: st.s, v⟩
  else if op = DW_OP_const1u ∨ op = DW_OP_const2u ∨ op = DW_OP_const4u ∨ op = DW_OP_const8u then
    some ⟨ai.locValue1 :: st.s, ai.locValue1⟩
  else if op = DW_OP_const1s then
    let v := signExtend 1 ai.locValue1
    some ⟨v :: st.s, v⟩
  else if op = DW_OP_const2s then
    let v := signExtend 2 ai.locValue1
    some ⟨v :: st.s, v⟩
  else if op = DW_OP_const4s then
    let v := signExtend 4 ai.locValue1
    some ⟨v :: st.s, v⟩
  else if op = DW_OP_const8s then
    some ⟨ai.locValue1 :: st.s, ai.locValue1⟩
  else if op = DW_OP_dup then
    match st.s with
    | [] => none
    | a :: rest => some ⟨st.val :: a :: a :: rest, st.val⟩
  else if op = DW_OP_drop then
    match st.s with
    | [] => none
    | _ :: rest => some ⟨st.val :: rest, st.val⟩
  else if op = DW_OP_pick then
    match st.s with
    | [] => none
    | a :: rest =>
      match (a :: rest).get? ai.locValue1 with
      | none => none
      | some x => some ⟨st.val :: x :: a :: rest, st.val⟩
  else if op = DW_OP_over then
    match st.s with
    | a :: b :: rest => some ⟨st.val :: b :: a :: b :: rest, st.val⟩
    | _ => none
  else if op = DW_OP_swap then
    match st.s with
    | a :: b :: rest => some ⟨st.val :: b :: a :: rest, st.val⟩
    | _ => none
  else if op = DW_OP_rot then
    match st.s with
    | a :: b :: c :: rest => some ⟨st.val :: b :: c :: a :: rest, st.val⟩
    | _ => none
  else if op = DW_OP_deref_size ∨ op = DW_OP_xderef ∨ op = DW_OP_xderef_size then
    none
  else
    some ⟨st.val :: st.s, st.val⟩

/-- The loop of EvaluateDwarfExpression over the whole location
program. -/
def evalOps (fr : FrameCtx) (mem : MemView) :
    List ArgLocInfo → EvalState → Option EvalState
  | [], st => some st
  | ai :: rest, st =>
    match evalStep fr mem st ai with
    | none => none
    | some st1 => evalOps fr mem rest st1

/-- EvaluateDwarfExpression (basic_source_line_resolver.cc lines
197-327).  `val0` is the indeterminate initial content of the
uninitialized scratch variable `val`. -/
def EvaluateDwarfExpression (fr : FrameCtx) (mem : MemView) (loc : List ArgLocInfo)
    (val0 : Nat) : Nat :=
  match evalOps fr mem loc ⟨[], val0⟩ with
  | none => 0
  | some st =>
    match st.s with
    | [] => 0
    | v :: _ => v

/-- Modelled from the spec: section 4.8's description of the location
expression evaluator, in which `dup`, `drop`, `over`, `swap`, `rot`
and `pick` are the standard stack operations and *any* operation
outside the supported set yields failure.  Used only to compare the
spec's intended semantics with the source's EvaluateDwarfExpression.
Stack head is the top. -/
def dwarfSpecStep (fr : FrameCtx) (mem : MemView) (s : List Nat) (ai : ArgLocInfo) :
    Option (List Nat) :=
  let op := ai.op
  if DW_OP_reg0 ≤ op ∧ op ≤ DW_OP_reg31 then
    some (fr.getRegValue (op - DW_OP_reg0) :: s)
  else if op = DW_OP_regX then
    some (fr.getRegValue ai.locValue1 :: s)
  else if DW_OP_breg0 ≤ op ∧ op ≤ DW_OP_breg31 then
    some ((fr.getRegValue (op - DW_OP_breg0) + ai.locValue1) % U64 :: s)
  else if op = DW_OP_fbreg then
    some ((fr.getFrameBase + ai.locValue1) % U64 :: s)
  else if op = DW_OP_addr then
    some (ai.locValue1 :: s)
  else if DW_OP_lit0 ≤ op ∧ op ≤ DW_OP_lit31 then
    some ((op - DW_OP_lit0) :: s)
  else if op = DW_OP_const1u ∨ op = DW_OP_const2u ∨ op = DW_OP_const4u ∨ op = DW_OP_const8u then
    some (ai.locValue1 :: s)
  else if op = DW_OP_const1s then
    some (signExtend 1 ai.locValue1 :: s)
  else if op = DW_OP_const2s then
    some (signExtend 2 ai.locValue1 :: s)
  else if op = DW_OP_const4s then
    some (signExtend 4 ai.locValue1 :: s)
  else if op = DW_OP_const8s then
    some (ai.locValue1 :: s)
  else if op = DW_OP_dup then
    match s with
    | [] => none
    | a :: rest => some (a :: a :: rest)
  else if op = DW_OP_drop then
    match s with
    | [] => none
    | _ :: rest => some rest
  else if op = DW_OP_pick then
    match s.get? ai.locValue1 with
    | none => none
    | some x => some (x :: s)
  else if op = DW_OP_over then
    match s with
    | a :: b :: rest => some (b :: a :: b :: rest)
    | _ => none
  else if op = DW_OP_swap then
    match s with
    | a :: b :: rest => some (b :: a :: rest)
    | _ => none
  else if op = DW_OP_rot then
    match s with
    | a :: b :: c :: rest => some (b :: c :: a :: rest)
    | _ => none
  else if op = DW_OP_deref then
    match s with
    | [] => none
    | a :: rest =>
      match mem.read8 a with
      | none => none
      | some v => some (v :: rest)
  else
    none

/-- Modelled from the spec: evaluation of a whole location program
under section 4.8's semantics; failure and the empty final stack both
yield 0. -/
def dwarfSpecEvalOps (fr : FrameCtx) (mem : MemView) :
    List ArgLocInfo → List Nat → Option (List Nat)
  | [], s => some s
  | ai :: rest, s =>
    match dwarfSpecStep fr mem s ai with
    | none => none
    | some s1 => dwarfSpecEvalOps fr mem rest s1

/-- Modelled from the spec: top level of the section 4.8 evaluator. -/
def dwarfSpecEval (fr : FrameCtx) (mem : MemView) (loc : List ArgLocInfo) : Nat :=
  match dwarfSpecEvalOps fr mem loc [] with
  | none => 0
  | some [] => 0
  | some (v :: _) => v

/-- A frame context with frame base 0 and all registers 0, for
concrete evaluations. -/
def frame0 : FrameCtx := ⟨0, fun _ => 0⟩

/-- A memory view on which every read fails, for concrete
evaluations. -/
def memNone : MemView := ⟨fun _ => none, fun _ => none⟩

/-- A line record (struct Line): module-relative address, size, source
file id and line number. -/
structure Line where
  address : Nat
  size : Nat
  source_file_id : Nat
  line : Nat
deriving DecidableEq

/-- A PUBLIC record (struct PublicSymbol). -/
structure PublicSymbol where
  name : List Char
  address : Nat
  parameter_size : Nat
deriving DecidableEq

/-- One stored range of a ContainedRangeMap: half-open
`[base, base + size)` with its value. -/
structure RangeEntry (α : Type) where
  base : Nat
  size : Nat
  value : α
deriving DecidableEq

/-- A FUNC record with its nested line container
(BasicSourceLineResolver::Function). -/
structure Function where
  name : List Char
  address : Nat
  size : Nat
  parameter_size : Nat
  params : List FuncParam
  lines : List (RangeEntry Line)
deriving DecidableEq

/-- The overflow-friendly containment test
`addr >= base && addr - base < size` used by LookupAddress (lines
429-430) and FindWindowsFrameInfo (line 486).  Because of the
short-circuit, the uint64 subtraction never wraps, so plain Nat
subtraction agrees with the machine subtraction here. -/
def coversB (base size addr : Nat) : Bool :=
  decide (base ≤ addr) && decide (addr - base < size)

/-- Modelled from the spec: ContainedRangeMap::RetrieveNearestRange is
not part of this repository's source; section 4.3 specifies it as
returning the innermost stored range whose base is ≤ addr, with ties
in start address won by the last-stored range. -/
def retrieveNearest (entries : List (RangeEntry α)) (addr : Nat) :
    Option (RangeEntry α) :=
  entries.foldl
    (fun acc e =>
      if e.base ≤ addr then
        match acc with
        | none => some e
        | some a => if a.base ≤ e.base then some e else some a
      else acc)
    none

/-- Modelled from the spec: ContainedRangeMap::RetrieveRange is not
part of this repository's source; section 4.3 specifies it as
returning the innermost stored range covering addr, or none. -/
def retrieveRange (entries : List (RangeEntry α)) (addr : Nat) :
    Option (RangeEntry α) :=
  entries.foldl
    (fun acc e =>
      if coversB e.base e.size addr then
        match acc with
        | none => some e
        | some a => if a.base ≤ e.base then some e else some a
      else acc)
    none

/-- Modelled from the spec: whether two half-open ranges cross, i.e.
are neither disjoint nor cleanly nested one inside the other
(section 4.3's store condition for the containment range map). -/
def rangesCross (b1 s1 b2 s2 : Nat) : Bool :=
  !(decide (b1 + s1 ≤ b2) || decide (b2 + s2 ≤ b1) ||
    (decide (b2 ≤ b1) && decide (b1 + s1 ≤ b2 + s2)) ||
    (decide (b1 ≤ b2) && decide (b2 + s2 ≤ b1 + s1)))

/-- Modelled from the spec: ContainedRangeMap::StoreRange is not part
of this repository's source; section 4.3 specifies that it fails (no
effect) if size is 0, if base+size overflows uint64, or if the new
range would cross an existing one.  Returns the new container and the
position of the stored entry on success. -/
def storeRangeIdx (entries : List (RangeEntry α)) (base size : Nat) (v : α) :
    List (RangeEntry α) × Option Nat :=
  if size = 0 ∨ base + size > U64 ∨
      entries.any (fun e => rangesCross base size e.base e.size) then
    (entries, none)
  else
    (entries ++ [⟨base, size, v⟩], some entries.length)

/-- Modelled from the spec: AddressMap::Retrieve (the flat range map
for public symbols) is not part of this repository's source; section
4.3 specifies it as returning the entry with the greatest key ≤ addr. -/
def addressMapRetrieve (l : List (Nat × α)) (addr : Nat) : Option (Nat × α) :=
  l.foldl
    (fun acc p =>
      if p.1 ≤ addr then
        match acc with
        | none => some p
        | some a => if a.1 ≤ p.1 then some p else some a
      else acc)
    none

/-- Modelled from the spec: AddressMap::Store; public-symbol addresses
are unique, so storing an already-present key fails. -/
def addressMapStore (l : List (Nat × α)) (k : Nat) (v : α) :
    List (Nat × α) × Bool :=
  if l.any (fun p => p.1 = k) then (l, false) else (l ++ [(k, v)], true)

/-- First entry of an association list with the given key (std::map
find; keys are unique in all uses). -/
def assocFind (l : List (Nat × α)) (k : Nat) : Option α :=
  match l with
  | [] => none
  | (k0, v0) :: t => if k0 = k then some v0 else assocFind t k

/-- std::map insert: keeps the existing entry when the key is already
present. -/
def mapInsertKeep (l : List (Nat × α)) (k : Nat) (v : α) : List (Nat × α) :=
  if (assocFind l k).isSome then l else l ++ [(k, v)]

/-- std::map operator[] assignment on an ordered map (the CFI delta
rules): insert in ascending key order, overwriting an existing
entry. -/
def mapInsertSorted (l : List (Nat × α)) (k : Nat) (v : α) : List (Nat × α) :=
  match l with
  | [] => [(k, v)]
  | (k0, v0) :: t =>
    if k < k0 then (k, v) :: (k0, v0) :: t
    else if k = k0 then (k, v) :: t
    else (k0, v0) :: mapInsertSorted t k v

/-- WindowsFrameInfo kind STACK_INFO_FRAME_DATA. -/
def STACK_INFO_FRAME_DATA : Nat := 4

/-- WindowsFrameInfo kind STACK_INFO_FPO. -/
def STACK_INFO_FPO : Nat := 0

/-- Modelled from the spec: the WindowsFrameInfo carrier is an opaque
external type; the spec records only a kind, a covered range, an
optional parameter_size with its validity flag, and an opaque program
string.  A freshly constructed carrier has no valid fields. -/
structure WindowsFrameInfo where
  valid_parameter_size : Bool := false
  parameter_size : Nat := 0
  prog : List Char := []
deriving DecidableEq

/-- The module index (BasicSourceLineResolver::Module's containers). -/
structure Module where
  files_ : List (Nat × List Char)
  functions_ : List (RangeEntry Function)
  public_symbols_ : List (Nat × PublicSymbol)
  windows_frame_info_ : List (Nat × RangeEntry WindowsFrameInfo)
  cfi_initial_rules_ : List (RangeEntry (List Char))
  cfi_delta_rules_ : List (Nat × List Char)
  is_corrupt_ : Bool
deriving DecidableEq

/-- The windows_frame_info_ container for one frame-info kind. -/
def Module.winEntries (m : Module) (kind : Nat) : List (RangeEntry WindowsFrameInfo) :=
  (m.windows_frame_info_.filter (fun p => p.1 = kind)).map (fun p => p.2)

/-- An output entry of parameter recovery (StackFrame::ParamInfo).
`value` is modelled as the raw 8-byte word read at the parameter's
effective address (none when no value was recovered); the source
additionally renders this word as text, which is presentation only. -/
structure ParamInfo where
  typeName : List Char
  typeSize : Nat
  paramName : List Char
  value : Option Nat
deriving DecidableEq

/-- The loop of ReadFuncParams (lines 337-411): one output entry per
parameter, except that a zero effective address skips the parameter
(continue, line 358) and a failed 8-byte read at a non-zero address
abandons the parameter and all following ones (return, line 361). -/
def readFuncParamsGo (fr : FrameCtx) (mem : MemView) (val0 : Nat) :
    List FuncParam → List ParamInfo
  | [] => []
  | p :: rest =>
    if p.typeSize = 0 then
      ⟨p.typeName, p.typeSize, p.paramName, none⟩ :: readFuncParamsGo fr mem val0 rest
    else
      let addr := EvaluateDwarfExpression fr mem p.locs val0
      if addr = 0 then
        readFuncParamsGo fr mem val0 rest
      else
        match mem.read8 addr with
        | none => []
        | some v =>
          ⟨p.typeName, p.typeSize, p.paramName, some v⟩ :: readFuncParamsGo fr mem val0 rest

/-- ReadFuncParams (lines 329-412): the final content of the output
vector `info`, which starts out empty; a null memory view or an empty
parameter list leaves it untouched (the early return of line 332). -/
def ReadFuncParams (fr : FrameCtx) (mem : Option MemView) (params : List FuncParam)
    (val0 : Nat) : List ParamInfo :=
  match mem with
  | none => []
  | some m => if params.isEmpty then [] else readFuncParamsGo fr m val0 params

/-- The output fields of a StackFrame that LookupAddress populates;
none models a field left unset. -/
structure FrameOut where
  function_name : Option (List Char) := none
  function_base : Option Nat := none
  source_file_name : Option (List Char) := none
  source_line : Option Nat := none
  source_line_base : Option Nat := none
  params : List ParamInfo := []
deriving DecidableEq

/-- A StackFrame with no output field set. -/
def emptyFrameOut : FrameOut := {}

/-- The frame fields set when a PUBLIC symbol is adopted (lines
450-451): function name and base only. -/
def publicFrameOut (mbase : Nat) (public_address : Nat) (sym : PublicSymbol) : FrameOut :=
  { function_name := some sym.name
    function_base := some ((mbase + public_address) % U64) }

/-- BasicSourceLineResolver::Module::LookupAddress (lines 414-453).
`mbase` is frame->module->base_address(), `address` the
module-relative address, `val0` the evaluator's scratch seed. -/
def lookupAddress (m : Module) (mbase address : Nat) (fr : FrameCtx)
    (mem : Option MemView) (val0 : Nat) : FrameOut :=
  match retrieveNearest m.functions_ address with
  | some e =>
    if coversB e.base e.size address then
      let ps := ReadFuncParams fr mem e.value.params val0
      match retrieveRange e.value.lines address with
      | some le =>
        { function_name := some e.value.name
          function_base := some ((mbase + e.base) % U64)
          source_file_name := assocFind m.files_ le.value.source_file_id
          source_line := some le.value.line
          source_line_base := some ((mbase + le.base) % U64)
          params := ps }
      | none =>
        { function_name := some e.value.name
          function_base := some ((mbase + e.base) % U64)
          params := ps }
    else
      match addressMapRetrieve m.public_symbols_ address with
      | some p => if e.base < p.1 then publicFrameOut mbase p.1 p.2 else emptyFrameOut
      | none => emptyFrameOut
  | none =>
    match addressMapRetrieve m.public_symbols_ address with
    | some p => publicFrameOut mbase p.1 p.2
    | none => emptyFrameOut

/-- BasicSourceLineResolver::Module::FindWindowsFrameInfo (lines
455-502).  The last branch (public symbol only) stores parameter_size
into a carrier that is never returned; observationally the function
returns NULL there, which the model renders directly as none. -/
def findWindowsFrameInfo (m : Module) (address : Nat) : Option WindowsFrameInfo :=
  match retrieveRange (m.winEntries STACK_INFO_FRAME_DATA) address with
  | some e => some e.value
  | none =>
    match retrieveRange (m.winEntries STACK_INFO_FPO) address with
    | some e => some e.value
    | none =>
      match retrieveNearest m.functions_ address with
      | some e =>
        if coversB e.base e.size address then
          some { valid_parameter_size := true
                 parameter_size := e.value.parameter_size }
        else none
      | none => none

/-- BasicSourceLineResolver::Module::FindCFIFrameInfo (lines 504-536).
The external CFI rule parser (ParseCFIRuleSet) is opaque; `parseOk`
models which rule strings it accepts, and the produced rule set is
modelled as the ordered list of rule strings applied to it (initial
first, then each delta). -/
def findCFIFrameInfo (parseOk : List Char → Bool) (m : Module) (address : Nat) :
    Option (List (List Char)) :=
  match retrieveRange m.cfi_initial_rules_ address with
  | none => none
  | some e =>
    if parseOk e.value then
      let deltas :=
        (m.cfi_delta_rules_.dropWhile (fun kv => kv.1 < e.base)).takeWhile
          (fun kv => kv.1 ≤ address)
      some (e.value :: deltas.map (fun kv => kv.2))
    else none

def kWhitespace : List Char := [' ', '\r', '\n']

def LONG_MAX : Int := 2 ^ 63 - 1

def INT_MAX : Nat := 2 ^ 31 - 1

/-- Modelled from the spec: the Tokenize helper (processor/tokenize.cc,
not part of this repository's source).  Section 4.1: split a line by a
delimiter set into up to N tokens; the first N−1 splits consume one
run of delimiters each, the last field captures the remainder (which
may itself contain delimiters); success means exactly N tokens. -/
def tokenize (delims : List Char) : Nat → List Char → List (List Char)
  | 0, _ => []
  | 1, s =>
    let r := s.dropWhile (fun c => delims.contains c)
    if r.isEmpty then [] else [r]
  | n + 2, s =>
    let s1 := s.dropWhile (fun c => delims.contains c)
    let t := s1.takeWhile (fun c => !(delims.contains c))
    if t.isEmpty then [] else t :: tokenize delims (n + 1) (s1.drop t.length)

/-- Modelled from libc: one strtok_r step.  Skips a leading run of
delimiters, returns the next token and the rest of the input after
the single delimiter character that strtok overwrites with NUL (or
the empty rest when the token ended the string). -/
def strtokStep (delims : List Char) (s : List Char) : Option (List Char × List Char) :=
  let s1 := s.dropWhile (fun c => delims.contains c)
  match s1 with
  | [] => none
  | _ =>
    let t := s1.takeWhile (fun c => !(delims.contains c))
    some (t, (s1.drop t.length).drop 1)

/-- The isspace set that the libc strtol family skips. -/
def isWS (c : Char) : Bool :=
  c == ' ' || c == '\t' || c == '\n' || c == '\r' || c == '\x0b' || c == '\x0c'

def digitVal? (base : Nat) (c : Char) : Option Nat :=
  if '0' ≤ c ∧ c ≤ '9' then some (c.toNat - '0'.toNat)
  else if base = 16 ∧ 'a' ≤ c ∧ c ≤ 'f' then some (c.toNat - 'a'.toNat + 10)
  else if base = 16 ∧ 'A' ≤ c ∧ c ≤ 'F' then some (c.toNat - 'A'.toNat + 10)
  else none

def digitValB (base : Nat) (c : Char) : Bool := (digitVal? base c).isSome

/-- The run of digits at the head of `s` in the given base, its value,
and the rest. -/
def strtoNatCore (base : Nat) (s : List Char) : Nat × List Char × Bool :=
  let ds := s.takeWhile (digitValB base)
  let v := ds.foldl (fun a c => a * base + (digitVal? base c).getD 0) 0
  (v, s.drop ds.length, !ds.isEmpty)

/-- Modelled from libc: strtoull/strtoul with base 16 on an LP64 host
(64-bit unsigned long).  Skips whitespace, an optional sign and an
optional 0x prefix; clamps to ULLONG_MAX on overflow; a negative
in-range value wraps mod 2^64; when no digit is consumed the end
pointer is the original input and the value 0. -/
def strtou64hex (s : List Char) : Nat × List Char :=
  let s1 := s.dropWhile isWS
  let signed : Bool × List Char :=
    match s1 with
    | '-' :: t => (true, t)
    | '+' :: t => (false, t)
    | _ => (false, s1)
  let s3 :=
    match signed.2 with
    | '0' :: c :: t =>
      if (c == 'x' || c == 'X') &&
          (match t with | d :: _ => digitValB 16 d | [] => false) then t
      else signed.2
    | _ => signed.2
  let r := strtoNatCore 16 s3
  if !r.2.2 then (0, s)
  else if U64 ≤ r.1 then (U64 - 1, r.2.1)
  else if signed.1 then ((U64 - r.1) % U64, r.2.1)
  else (r.1, r.2.1)

/-- Modelled from libc: strtol on an LP64 host (64-bit long), in the
given base (10 or 16, with 0x accepted for 16).  Clamps to
LONG_MIN/LONG_MAX on overflow; when no digit is consumed the end
pointer is the original input and the value 0. -/
def strtolBase (base : Nat) (s : List Char) : Int × List Char :=
  let s1 := s.dropWhile isWS
  let signed : Bool × List Char :=
    match s1 with
    | '-' :: t => (true, t)
    | '+' :: t => (false, t)
    | _ => (false, s1)
  let s3 :=
    match signed.2 with
    | '0' :: c :: t =>
      if base = 16 ∧ ((c == 'x' || c == 'X') &&
          (match t with | d :: _ => digitValB 16 d | [] => false)) then t
      else signed.2
    | _ => signed.2
  let r := strtoNatCore base s3
  if !r.2.2 then (0, s)
  else if signed.1 then
    (if r.1 ≥ 2 ^ 63 then -(2 ^ 63 : Int) else -(r.1 : Int), r.2.1)
  else
    (if (r.1 : Int) ≥ LONG_MAX then LONG_MAX else (r.1 : Int), r.2.1)

/-- SymbolParseHelper::IsValidAfterNumber (lines 911-916): the char
after the digits is end-of-string (strchr finds the terminator) or one
of the kWhitespace delimiters. -/
def IsValidAfterNumber (after : List Char) : Bool :=
  match after with
  | [] => true
  | c :: _ => kWhitespace.contains c

/-- SymbolParseHelper::ParseFile (lines 693-717): FILE <id> <name>. -/
def SymbolParseHelper.ParseFile (file_line : List Char) : Option (Nat × List Char) :=
  let rest := file_line.drop 5
  match tokenize kWhitespace 2 rest with
  | [t0, t1] =>
    let r := strtolBase 10 t0
    if IsValidAfterNumber r.2 = false ∨ r.1 < 0 ∨ r.1 = LONG_MAX then none
    else some (r.1.toNat, t1)
  | _ => none

/-- The per-operation loop inside SymbolParseHelper::ParseFuncParam
(lines 746-778).  none models `params.clear(); return false`.  The
locValue1/locValue2 fields stay uninitialized in the source when the
operation has fewer than 2 resp. 3 fields; they are modelled as 0.
The opcode is stored into an unsigned char, hence mod 256. -/
def parseLocs : List (List Char) → List ArgLocInfo → Option (List ArgLocInfo)
  | [], acc => some acc
  | le :: rest, acc =>
    match tokenize [':'] 4 le with
    | [] => none
    | l0 :: ltail =>
      let rop := strtou64hex l0
      if !rop.2.isEmpty then none
      else
        let v1 :=
          match ltail with
          | t1 :: _ =>
            let r1 := strtou64hex t1
            if !r1.2.isEmpty then 0 else r1.1
          | [] => 0
        let v2 :=
          match ltail with
          | _ :: t2 :: _ =>
            let r2 := strtou64hex t2
            if !r2.2.isEmpty then 0 else r2.1
          | _ => 0
        parseLocs rest (acc ++ [⟨rop.1 % 256, v1, v2⟩])

/-- SymbolParseHelper::ParseFuncParam (lines 719-782), as the final
content of the `params` vector (its missing return value on the
fall-through path is ignored by the caller).  A failed `@`-tokenize or
a bad opcode clears the vector; an empty location-expression list
returns with the already-parsed parameters kept and the current one
dropped. -/
def ParseFuncParam : List (List Char) → List FuncParam → List FuncParam
  | [], acc => acc
  | pstr :: rest, acc =>
    match tokenize ['@'] 4 pstr with
    | [a0, a1, a2, a3] =>
      let rts := strtou64hex a1
      let typeSize := if !rts.2.isEmpty then 0 else rts.1
      let loc_exp := tokenize ['$'] INT_MAX a3
      if loc_exp.isEmpty then acc
      else
        match parseLocs loc_exp [] with
        | none => []
        | some locs => ParseFuncParam rest (acc ++ [⟨a0, typeSize, a2, locs⟩])
    | _ => []

/-- SymbolParseHelper::ParseFunction (lines 785-832):
FUNC <addr> <size> <stack_param_size> <name> with optional
`#`-delimited parameter metadata. -/
def SymbolParseHelper.ParseFunction (function_line : List Char) :
    Option (Nat × Nat × Nat × List Char × List FuncParam) :=
  let rest := function_line.drop 5
  let segments := tokenize ['#'] 3 rest
  match segments with
  | [] => none
  | seg0 :: _ =>
    match tokenize kWhitespace 4 seg0 with
    | [t0, t1, t2, t3] =>
      let ra := strtou64hex t0
      if IsValidAfterNumber ra.2 = false ∨ ra.1 = U64 - 1 then none
      else
        let rs := strtou64hex t1
        if IsValidAfterNumber rs.2 = false ∨ rs.1 = U64 - 1 then none
        else
          let rp := strtolBase 16 t2
          if IsValidAfterNumber rp.2 = false ∨ rp.1 = LONG_MAX ∨ rp.1 < 0 then none
          else
            let params :=
              match segments with
              | [_, s1, s2] =>
                let rn := strtou64hex s1
                if !rn.2.isEmpty then []
                else
                  let argsArray := tokenize ['#'] rn.1 s2
                  if argsArray.length ≠ rn.1 then [] else ParseFuncParam argsArray []
              | _ => []
            some (ra.1, rs.1, rp.1.toNat, t3, params)
    | _ => none

/-- SymbolParseHelper::ParseLine (lines 835-877):
<address> <size> <line number> <source file id>; 0 is a valid line
number (block helper functions). -/
def SymbolParseHelper.ParseLine (line_line : List Char) : Option Line :=
  match tokenize kWhitespace 4 line_line with
  | [t0, t1, t2, t3] =>
    let ra := strtou64hex t0
    if IsValidAfterNumber ra.2 = false ∨ ra.1 = U64 - 1 then none
    else
      let rs := strtou64hex t1
      if IsValidAfterNumber rs.2 = false ∨ rs.1 = U64 - 1 then none
      else
        let rl := strtolBase 10 t2
        if IsValidAfterNumber rl.2 = false ∨ rl.1 = LONG_MAX then none
        else
          let rf := strtolBase 10 t3
          if IsValidAfterNumber rf.2 = false ∨ rf.1 < 0 ∨ rf.1 = LONG_MAX then none
          else if rl.1 < 0 then none
          else some ⟨ra.1, rs.1, rf.1.toNat, rl.1.toNat⟩
  | _ => none

/-- SymbolParseHelper::ParsePublicSymbol (lines 880-908):
PUBLIC <addr> <stack_param_size> <name>. -/
def SymbolParseHelper.ParsePublicSymbol (public_line : List Char) :
    Option (Nat × Nat × List Char) :=
  let rest := public_line.drop 7
  match tokenize kWhitespace 3 rest with
  | [t0, t1, t2] =>
    let ra := strtou64hex t0
    if IsValidAfterNumber ra.2 = false ∨ ra.1 = U64 - 1 then none
    else
      let rp := strtolBase 16 t1
      if IsValidAfterNumber rp.2 = false ∨ rp.1 = LONG_MAX ∨ rp.1 < 0 then none
      else some (ra.1, rp.1.toNat, t2)
  | _ => none

/-- Modelled from the spec: WindowsFrameInfo::ParseFromString is an
external collaborator (section 4.2 delegates STACK WIN payloads to the
frame-info parser).  It yields the frame-info kind, rva and code size
from the leading hex fields plus an opaque carrier, failing on
malformed input. -/
def winParseFromString (s : List Char) : Option (Nat × Nat × Nat × WindowsFrameInfo) :=
  match tokenize kWhitespace 4 s with
  | t0 :: t1 :: t2 :: restToks =>
    let r0 := strtou64hex t0
    let r1 := strtou64hex t1
    let r2 := strtou64hex t2
    if r0.2.isEmpty && r1.2.isEmpty && r2.2.isEmpty && decide (r0.1 ≤ 4) then
      some (r0.1, r1.1, r2.1,
        { prog := match restToks with | [r] => r | _ => [] })
    else none
  | _ => none

/-- The loader's mutable state during LoadMapFromMemory: the current
function cursor (with the index of its stored copy in `functions_`,
modelling the linked_ptr sharing of line records), the error and line
counters, and the module containers. -/
structure LoadState where
  curFunc : Option (Function × Option Nat) := none
  numErrors : Nat := 0
  lineNumber : Nat := 0
  files_ : List (Nat × List Char) := []
  functions_ : List (RangeEntry Function) := []
  public_symbols_ : List (Nat × PublicSymbol) := []
  windows_frame_info_ : List (Nat × RangeEntry WindowsFrameInfo) := []
  cfi_initial_rules_ : List (RangeEntry (List Char)) := []
  cfi_delta_rules_ : List (Nat × List Char) := []
deriving DecidableEq

/-- Module::LogParseError (lines 74-85): counts the error (the first 5
are additionally printed, which is not modelled). -/
def logParseError (st : LoadState) : LoadState :=
  { st with numErrors := st.numErrors + 1 }

/-- Module::ParseCFIFrameInfo (lines 657-690). -/
def parseCFIFrameInfo (st : LoadState) (stack_info_line : List Char) :
    Option LoadState :=
  match strtokStep kWhitespace stack_info_line with
  | none => none
  | some (init_or_address, cursor) =>
    if init_or_address = "INIT".toList then
      match strtokStep kWhitespace cursor with
      | none => none
      | some (address_field, c1) =>
        match strtokStep kWhitespace c1 with
        | none => none
        | some (size_field, c2) =>
          match strtokStep ['\r', '\n'] c2 with
          | none => none
          | some (initial_rules, _) =>
            let address := (strtou64hex address_field).1
            let size := (strtou64hex size_field).1
            some { st with cfi_initial_rules_ :=
              (storeRangeIdx st.cfi_initial_rules_ address size initial_rules).1 }
    else
      match strtokStep ['\r', '\n'] cursor with
      | none => none
      | some (delta_rules, _) =>
        let address := (strtou64hex init_or_address).1
        some { st with cfi_delta_rules_ :=
          mapInsertSorted st.cfi_delta_rules_ address delta_rules }

/-- Module::ParseStackInfo (lines 601-655); the argument is the line
with the "STACK " prefix already skipped.  The StoreRange result for
STACK WIN records is deliberately ignored (see the TODO at lines
626-644). -/
def parseStackInfo (st : LoadState) (stack_info_line : List Char) :
    Option LoadState :=
  let s1 := stack_info_line.dropWhile (fun c => c == ' ')
  let platform := s1.takeWhile (fun c => !(kWhitespace.contains c))
  let after := s1.drop (platform.length + 1)
  if platform = "WIN".toList then
    match winParseFromString after with
    | none => none
    | some (ty, rva, code_size, carrier) =>
      let sameKind := (st.windows_frame_info_.filter (fun p => p.1 = ty)).map Prod.snd
      let stored := (storeRangeIdx sameKind rva code_size carrier).1
      let others := st.windows_frame_info_.filter (fun p => p.1 ≠ ty)
      some { st with windows_frame_info_ := others ++ stored.map (fun e => (ty, e)) }
  else if platform = "CFI".toList then
    parseCFIFrameInfo st after
  else none

/-- Dispatch on one line of the symbol file (the body of the while
loop of LoadMapFromMemory, lines 134-183), on a state whose
line_number has already been incremented. -/
def handleLine (st : LoadState) (buffer : List Char) : LoadState :=
  if buffer.take 5 = "FILE ".toList then
    match SymbolParseHelper.ParseFile buffer with
    | some (idx, name) => { st with files_ := mapInsertKeep st.files_ idx name }
    | none => logParseError st
  else if buffer.take 6 = "STACK ".toList then
    match parseStackInfo st (buffer.drop 6) with
    | some st1 => st1
    | none => logParseError st
  else if buffer.take 5 = "FUNC ".toList then
    match SymbolParseHelper.ParseFunction buffer with
    | none => logParseError { st with curFunc := none }
    | some (address, size, sps, name, params) =>
      let f : Function := ⟨name, address, size, sps, params, []⟩
      let stored := storeRangeIdx st.functions_ address size f
      { st with curFunc := some (f, stored.2), functions_ := stored.1 }
  else if buffer.take 7 = "PUBLIC ".toList then
    let st1 := { st with curFunc := none }
    match SymbolParseHelper.ParsePublicSymbol buffer with
    | none => logParseError st1
    | some (address, sps, name) =>
      if address = 0 then st1
      else
        let stored := addressMapStore st1.public_symbols_ address ⟨name, address, sps⟩
        if stored.2 then { st1 with public_symbols_ := stored.1 }
        else logParseError st1
  else if buffer.take 7 = "MODULE ".toList then st
  else if buffer.take 5 = "INFO ".toList then st
  else
    match st.curFunc with
    | none => logParseError st
    | some (f, idx) =>
      match SymbolParseHelper.ParseLine buffer with
      | none => logParseError st
      | some ln =>
        let newLines := (storeRangeIdx f.lines ln.address ln.size ln).1
        let f1 := { f with lines := newLines }
        let fns :=
          match idx with
          | none => st.functions_
          | some i =>
            match st.functions_.get? i with
            | some e => st.functions_.set i { e with value := f1 }
            | none => st.functions_
        { st with curFunc := some (f1, idx), functions_ := fns }

def kMaxErrorsBeforeBailing : Nat := 100

/-- The while loop of LoadMapFromMemory (lines 131-189): handle each
line, bailing out after the line whose handling pushed the error count
strictly above kMaxErrorsBeforeBailing (lines 184-187). -/
def processLines : List (List Char) → LoadState → LoadState
  | [], st => st
  | l :: rest, st =>
    let st1 := handleLine { st with lineNumber := st.lineNumber + 1 } l
    if kMaxErrorsBeforeBailing < st1.numErrors then st1
    else processLines rest st1

/-- The region of the buffer before the trailing run of NUL
terminators, after the last byte has been forced to NUL (lines
102-114): everything of the first size−1 bytes except the trailing
NUL run. -/
def interiorRaw (buf : List Char) : List Char :=
  ((buf.take (buf.length - 1)).reverse.dropWhile (fun c => c == '\x00')).reverse

/-- The interior-NUL rewriting pass of LoadMapFromMemory (lines
102-126): the region handed to line tokenization, with every interior
NUL rewritten to an underscore, and whether any interior NUL was
found. -/
def fixBuffer (buf : List Char) : List Char × Bool :=
  let raw := interiorRaw buf
  (raw.map (fun c => if c == '\x00' then '_' else c),
   raw.any (fun c => c == '\x00'))

/-- strtok_r with delimiters CR/LF over the whole buffer: the maximal
runs of non-terminator characters, in order (fuel-based recursion; the
fuel is always sufficient at the call site). -/
def splitLinesAux : Nat → List Char → List (List Char)
  | 0, _ => []
  | fuel + 1, s =>
    let s1 := s.dropWhile (fun c => c == '\r' || c == '\n')
    match s1 with
    | [] => []
    | _ =>
      let t := s1.takeWhile (fun c => !(c == '\r' || c == '\n'))
      t :: splitLinesAux fuel (s1.drop t.length)

def splitLines (s : List Char) : List (List Char) :=
  splitLinesAux (s.length + 1) s

/-- The observable outcome of LoadMapFromMemory: its return value, the
module contents, the final error count and the number of lines the
loop processed (the final value of line_number). -/
structure LoadResult where
  success : Bool
  module : Module
  numErrors : Nat
  linesProcessed : Nat
deriving DecidableEq

/-- A freshly created module: empty containers: per the spec's
lifecycle a module is created by loading and is not corrupt until an
error is counted (the constructor is outside this repository's
source). -/
def emptyModule : Module := ⟨[], [], [], [], [], [], false⟩

def moduleOfState (st : LoadState) (corrupt : Bool) : Module :=
  ⟨st.files_, st.functions_, st.public_symbols_, st.windows_frame_info_,
   st.cfi_initial_rules_, st.cfi_delta_rules_, corrupt⟩

/-- BasicSourceLineResolver::Module::LoadMapFromMemory (lines 87-195).
An empty buffer returns success immediately (lines 98-100); otherwise
the buffer is NUL-fixed, split into lines, processed, and the
corruption flag set iff any error was counted (line 193).  The
function always returns true. -/
def LoadMapFromMemory (buf : List Char) : LoadResult :=
  match buf with
  | [] => ⟨true, emptyModule, 0, 0⟩
  | _ :: _ =>
    let fb := fixBuffer buf
    let e0 := if fb.2 then 1 else 0
    let fin := processLines (splitLines fb.1) { numErrors := e0 }
    ⟨true, moduleOfState fin (decide (0 < fin.numErrors)), fin.numErrors,
     fin.lineNumber⟩

/-- The location program lit5; lit7; swap (opcodes 0x35, 0x37, 0x16). -/
def progLitLitSwap : List ArgLocInfo := [⟨0x35, 0, 0⟩, ⟨0x37, 0, 0⟩, ⟨0x16, 0, 0⟩]

/-- The location program lit5; plus (opcodes 0x35 and the unsupported
0x22 = DW_OP_plus). -/
def progLitPlus : List ArgLocInfo := [⟨0x35, 0, 0⟩, ⟨0x22, 0, 0⟩]

/-- A function stored at the very top of the 64-bit address space:
base = UINT64_MAX − 4, size = 4. -/
def topFunc : Function := ⟨[' '], U64 - 5, 4, 0, [], []⟩

/-- A module holding only topFunc. -/
def topModule : Module := ⟨[], [⟨U64 - 5, 4, topFunc⟩], [], [], [], [], false⟩

/-- A function of parameter_size 8 covering [0x100, 0x120), for the
FindWindowsFrameInfo witness. -/
def winFunc : Function := ⟨[' '], 0x100, 0x20, 8, [], []⟩

/-- A module holding only winFunc, with no STACK records. -/
def winModule : Module := ⟨[], [⟨0x100, 0x20, winFunc⟩], [], [], [], [], false⟩

/-- The STACK CFI INIT rule string of the spec's scenario 4. -/
def cfiIni : List Char := (".cfa: rsp 8 +").toList

/-- The first STACK CFI delta rule string of the spec's scenario 4. -/
def cfiDelta1 : List Char := ("rip: .cfa -8 +").toList

/-- The second STACK CFI delta rule string of the spec's scenario 4. -/
def cfiDelta2 : List Char := ("rbp: .cfa -16 +").toList

/-- The CFI containers of the spec's scenario 4: initial rules on
[0x1000, 0x1100), deltas at 0x1010 and 0x1040. -/
def cfiModule : Module :=
  ⟨[], [], [], [], [⟨0x1000, 0x100, cfiIni⟩],
   [(0x1010, cfiDelta1), (0x1040, cfiDelta2)], false⟩

/-- A parameter whose location program pushes the literal address 5
(DW_OP_addr 5). -/
def addrParam : FuncParam := ⟨("int").toList, 8, [' '], [⟨0x03, 5, 0⟩]⟩

/-- A buffer of 102 lines, each the unparseable record "x". -/
def capBuf : List Char := (List.replicate 102 (("x").toList ++ ['\n'])).flatten

/-- One unparseable line of the capBuf buffer. -/
def capLine : List Char := ("x").toList

/-- A buffer with one interior NUL byte: "a\0b\n". -/
def nulBuf : List Char := 'a' :: '\x00' :: 'b' :: '\n' :: []

/-- Claim C3: the claim says dup/drop/over/swap/rot/pick are the
standard stack operations (and underflow fails with 0).  The source's
loop instead pushes the stale scratch variable `val` after every one
of these operations (the unconditional push at line 321), so the
program lit5; lit7; swap evaluates to 7 where the standard semantics
(the spec-modelled evaluator) gives 5.  The underflow half of the
claim does hold: swap on an empty stack returns 0 for every scratch
seed. -/
theorem evalDwarf_stackops_push_stale_val :
    EvaluateDwarfExpression frame0 memNone progLitLitSwap 0 = 7
  ∧ dwarfSpecEval frame0 memNone progLitLitSwap = 5
  ∧ ∀ v0 : Nat, EvaluateDwarfExpression frame0 memNone [⟨0x16, 0, 0⟩] v0 = 0 :=
  ⟨by decide, by decide, fun _ => rfl⟩

/-- Claim C4: the claim says any opcode outside the supported set
yields failure = 0.  Only deref_size/xderef/xderef_size do; an opcode
matching no branch of the if/else chain falls through to the
unconditional push of the scratch variable `val`, so lit5 followed by
the unsupported DW_OP_plus (0x22) evaluates to 5, not 0 (the
spec-modelled evaluator gives 0).  A program consisting of only the
unknown opcode even returns the uninitialized scratch seed itself. -/
theorem evalDwarf_unknown_opcode_not_failure :
    EvaluateDwarfExpression frame0 memNone progLitPlus 0 = 5
  ∧ dwarfSpecEval frame0 memNone progLitPlus = 0
  ∧ ∀ v0 : Nat, EvaluateDwarfExpression frame0 memNone [⟨0x22, 0, 0⟩] v0 = v0 :=
  ⟨by decide, by decide, fun _ => rfl⟩

/-- Claim C5: range containment is the overflow-safe
`addr >= base && addr - base < size`: the function stored at
base = UINT64_MAX − 4 with size = 4 is not adopted by a lookup at
UINT64_MAX but is adopted at UINT64_MAX − 1, both in LookupAddress and
in FindWindowsFrameInfo's function fallback. -/
theorem containment_overflow_safe_at_top :
    coversB (U64 - 5) 4 (U64 - 1) = false
  ∧ coversB (U64 - 5) 4 (U64 - 2) = true
  ∧ (lookupAddress topModule 0 (U64 - 1) frame0 none 0).function_name = none
  ∧ (lookupAddress topModule 0 (U64 - 2) frame0 none 0).function_name
      = some topFunc.name
  ∧ findWindowsFrameInfo topModule (U64 - 1) = none
  ∧ findWindowsFrameInfo topModule (U64 - 2)
      = some { valid_parameter_size := true, parameter_size := 0 } := by
  refine ⟨by decide, by decide, by decide, by decide, by decide, by decide⟩

/-- Claim C10: in ReadFuncParams, a non-zero effective address whose
8-byte read fails aborts the whole loop: the failing parameter and
every later one are omitted (the output list ends there), whereas a
zero effective address skips only that one parameter. -/
theorem readFuncParams_word_read_failure_aborts (fr : FrameCtx) (mem : MemView)
    (v0 : Nat) (p : FuncParam) (rest : List FuncParam) :
    (p.typeSize ≠ 0 →
      EvaluateDwarfExpression fr mem p.locs v0 ≠ 0 →
      mem.read8 (EvaluateDwarfExpression fr mem p.locs v0) = none →
      ReadFuncParams fr (some mem) (p :: rest) v0 = [])
  ∧ (p.typeSize ≠ 0 →
      EvaluateDwarfExpression fr mem p.locs v0 = 0 →
      ReadFuncParams fr (some mem) (p :: rest) v0 = readFuncParamsGo fr mem v0 rest) := by
  constructor
  · intro h1 h2 h3
    simp [ReadFuncParams, readFuncParamsGo, h1, h2, h3]
  · intro h1 h2
    simp [ReadFuncParams, readFuncParamsGo, h1, h2]

/-- Witness for C10: a concrete parameter whose address expression
yields 5 on a memory view where every read fails. -/
theorem readFuncParams_word_read_failure_aborts_witness :
    ReadFuncParams frame0 (some memNone) [addrParam] 0 = [] :=
  (readFuncParams_word_read_failure_aborts frame0 memNone 0 addrParam []).1
    (by decide) (by decide) rfl

/-- Claim C7: LoadMapFromMemory returns success for every buffer; the
module's is_corrupt flag is set iff at least one error was counted;
the empty buffer yields the empty, non-corrupt module. -/
theorem loadMap_success_and_corrupt_iff (buf : List Char) :
    (LoadMapFromMemory buf).success = true
  ∧ (LoadMapFromMemory buf).module.is_corrupt_
      = decide (0 < (LoadMapFromMemory buf).numErrors)
  ∧ (buf = [] → LoadMapFromMemory buf = ⟨true, emptyModule, 0, 0⟩) := by
  refine ⟨?_, ?_, ?_⟩ <;> cases buf <;>
    simp [LoadMapFromMemory, moduleOfState, emptyModule]

/-- Witness for C7: the empty buffer loads successfully into the
empty module. -/
theorem loadMap_success_and_corrupt_iff_witness :
    LoadMapFromMemory [] = ⟨true, emptyModule, 0, 0⟩ :=
  (loadMap_success_and_corrupt_iff []).2.2 rfl

/-- Claim C9: when no FRAME_DATA or FPO range covers the address,
FindWindowsFrameInfo returns a carrier with only parameter_size (from
the covering function's stack_param_size) and its validity flag if the
nearest function actually covers the address, and none otherwise — in
particular none when only a public symbol could apply. -/
theorem findWindowsFrameInfo_fallback (m : Module) (address : Nat)
    (h1 : retrieveRange (m.winEntries STACK_INFO_FRAME_DATA) address = none)
    (h2 : retrieveRange (m.winEntries STACK_INFO_FPO) address = none) :
    (∀ e, retrieveNearest m.functions_ address = some e →
      coversB e.base e.size address = true →
      findWindowsFrameInfo m address
        = some { valid_parameter_size := true
                 parameter_size := e.value.parameter_size })
  ∧ (∀ e, retrieveNearest m.functions_ address = some e →
      coversB e.base e.size address = false →
      findWindowsFrameInfo m address = none)
  ∧ (retrieveNearest m.functions_ address = none →
      findWindowsFrameInfo m address = none) := by
  refine ⟨?_, ?_, ?_⟩
  · intro e hr hc
    simp [findWindowsFrameInfo, h1, h2, hr, hc]
  · intro e hr hc
    simp [findWindowsFrameInfo, h1, h2, hr, hc]
  · intro hr
    simp [findWindowsFrameInfo, h1, h2, hr]

/-- Witness for C9: a module with one function of stack_param_size 8
covering [0x100, 0x120) and no STACK records yields the minimal
parameter-size-only carrier at 0x105. -/
theorem findWindowsFrameInfo_fallback_witness :
    findWindowsFrameInfo winModule 0x105
      = some { valid_parameter_size := true, parameter_size := 8 } :=
  (findWindowsFrameInfo_fallback winModule 0x105 rfl rfl).1
    ⟨0x100, 0x20, winFunc⟩ rfl rfl

/-- Claim C1: LookupAddress takes its function fields from at most one
evidence source.  If the nearest function covers the address it is
adopted (and the result does not depend on the public symbols at all);
otherwise a public symbol is adopted exactly when one is found and
either no function was retrieved or the symbol's address is strictly
greater than the nearest function's base; otherwise every output field
remains unset. -/
theorem lookupAddress_single_evidence (m : Module) (mbase address : Nat)
    (fr : FrameCtx) (mem : Option MemView) (v0 : Nat) :
    (∀ e, retrieveNearest m.functions_ address = some e →
      coversB e.base e.size address = true →
        (lookupAddress m mbase address fr mem v0).function_name = some e.value.name
      ∧ (lookupAddress m mbase address fr mem v0).function_base
          = some ((mbase + e.base) % U64)
      ∧ ∀ ps, lookupAddress { m with public_symbols_ := ps } mbase address fr mem v0
            = lookupAddress m mbase address fr mem v0)
  ∧ (∀ e p, retrieveNearest m.functions_ address = some e →
      coversB e.base e.size address = false →
      addressMapRetrieve m.public_symbols_ address = some p →
        (e.base < p.1 →
          lookupAddress m mbase address fr mem v0 = publicFrameOut mbase p.1 p.2)
      ∧ (¬ e.base < p.1 →
          lookupAddress m mbase address fr mem v0 = emptyFrameOut))
  ∧ (∀ p, retrieveNearest m.functions_ address = none →
      addressMapRetrieve m.public_symbols_ address = some p →
        lookupAddress m mbase address fr mem v0 = publicFrameOut mbase p.1 p.2)
  ∧ (∀ e, retrieveNearest m.functions_ address = some e →
      coversB e.base e.size address = false →
      addressMapRetrieve m.public_symbols_ address = none →
        lookupAddress m mbase address fr mem v0 = emptyFrameOut)
  ∧ (retrieveNearest m.functions_ address = none →
      addressMapRetrieve m.public_symbols_ address = none →
        lookupAddress m mbase address fr mem v0 = emptyFrameOut) := by
  refine ⟨?_, ?_, ?_, ?_, ?_⟩
  · intro e hr hc
    refine ⟨?_, ?_, ?_⟩
    · simp [lookupAddress, hr, hc]
      cases retrieveRange e.value.lines address <;> simp
    · simp [lookupAddress, hr, hc]
      cases retrieveRange e.value.lines address <;> simp
    · intro ps
      simp [lookupAddress, hr, hc]
  · intro e p hr hc hp
    constructor
    · intro hlt
      simp [lookupAddress, hr, hc, hp, hlt]
    · intro hlt
      simp [lookupAddress, hr, hc, hp, hlt]
  · intro p hr hp
    simp [lookupAddress, hr, hp]
  · intro e hr hc hp
    simp [lookupAddress, hr, hc, hp]
  · intro hr hp
    simp [lookupAddress, hr, hp]

/-- Witness for C1: on the empty module neither evidence source
applies and no output field is set. -/
theorem lookupAddress_single_evidence_witness :
    lookupAddress emptyModule 0 0 frame0 none 0 = emptyFrameOut :=
  (lookupAddress_single_evidence emptyModule 0 0 frame0 none 0).2.2.2.2 rfl rfl

/-- ParseCFIFrameInfo never touches the error counter. -/
theorem parseCFIFrameInfo_numErrors (st : LoadState) (s : List Char)
    (st1 : LoadState) (h : parseCFIFrameInfo st s = some st1) :
    st1.numErrors = st.numErrors := by
  unfold parseCFIFrameInfo at h
  repeat' split at h
  all_goals first
    | exact Option.noConfusion h
    | (obtain rfl := Option.some.inj h; rfl)

/-- ParseStackInfo never touches the error counter. -/
theorem parseStackInfo_numErrors (st : LoadState) (s : List Char)
    (st1 : LoadState) (h : parseStackInfo st s = some st1) :
    st1.numErrors = st.numErrors := by
  unfold parseStackInfo at h
  dsimp only at h
  repeat' split at h
  all_goals first
    | exact Option.noConfusion h
    | exact parseCFIFrameInfo_numErrors _ _ _ h
    | (obtain rfl := Option.some.inj h; rfl)

/-- Handling one line counts at most one error. -/
theorem handleLine_numErrors_le (st : LoadState) (l : List Char) :
    (handleLine st l).numErrors ≤ st.numErrors + 1 := by
  unfold handleLine
  dsimp only
  repeat' split
  all_goals first
    | (rename_i st1 heq
       rw [parseStackInfo_numErrors _ _ _ heq]
       exact Nat.le_succ _)
    | simp [logParseError]

set_option maxRecDepth 10000

/-- Claim C2 counterexample: a buffer of 102 unparseable lines.  After
line 100 the counted error total has reached 100, yet the loader still
processes line 101 (the bail-out condition is num_errors > 100, line
184): the final line_number is 101, not 100, and 101 errors are
counted. -/
theorem loadMap_error_cap_counterexample :
    (processLines (List.replicate 100 capLine) {}).numErrors = 100
  ∧ (LoadMapFromMemory capBuf).linesProcessed = 101
  ∧ (LoadMapFromMemory capBuf).numErrors = 101 :=
  ⟨by decide, by decide, by decide⟩

/-- Claim C2 (amended): parsing aborts once the counted error total
exceeds 100, i.e. reaches 101: a line that pushes the count above
kMaxErrorsBeforeBailing is the last one processed, a line that does
not lets processing continue, and consequently a load that starts at
or below the cap never counts more than 101 errors. -/
theorem processLines_cap_aborts (st : LoadState) :
    (∀ l rest,
      kMaxErrorsBeforeBailing <
          (handleLine { st with lineNumber := st.lineNumber + 1 } l).numErrors →
        processLines (l :: rest) st
          = handleLine { st with lineNumber := st.lineNumber + 1 } l)
  ∧ (∀ l rest,
      ¬ kMaxErrorsBeforeBailing <
          (handleLine { st with lineNumber := st.lineNumber + 1 } l).numErrors →
        processLines (l :: rest) st
          = processLines rest (handleLine { st with lineNumber := st.lineNumber + 1 } l))
  ∧ (∀ lines, st.numErrors ≤ kMaxErrorsBeforeBailing →
      (processLines lines st).numErrors ≤ kMaxErrorsBeforeBailing + 1) := by
  have key : ∀ (lines : List (List Char)) (st' : LoadState),
      st'.numErrors ≤ kMaxErrorsBeforeBailing →
      (processLines lines st').numErrors ≤ kMaxErrorsBeforeBailing + 1 := by
    intro lines
    induction lines with
    | nil =>
      intro st' h
      simpa [processLines] using Nat.le_succ_of_le h
    | cons l rest ih =>
      intro st' h
      have h1 : (handleLine { st' with lineNumber := st'.lineNumber + 1 } l).numErrors
          ≤ st'.numErrors + 1 :=
        handleLine_numErrors_le { st' with lineNumber := st'.lineNumber + 1 } l
      by_cases hb : kMaxErrorsBeforeBailing <
          (handleLine { st' with lineNumber := st'.lineNumber + 1 } l).numErrors
      · simp only [processLines, if_pos hb]
        omega
      · simp only [processLines, if_neg hb]
        exact ih _ (by omega)
  refine ⟨?_, ?_, fun lines h => key lines st h⟩
  · intro l rest h
    simp only [processLines, if_pos h]
  · intro l rest h
    simp only [processLines, if_neg h]

/-- Witness for C2 (amended): processing a single unparseable line
from a fresh state stays at or below 101 errors. -/
theorem processLines_cap_aborts_witness :
    (processLines [capLine] {}).numErrors ≤ kMaxErrorsBeforeBailing + 1 :=
  (processLines_cap_aborts {}).2.2 [capLine] (by decide)

/-- On a strictly ascending association list whose keys are all ≥ b,
taking while key ≤ a is the same as filtering b ≤ key ≤ a. -/
theorem takeWhile_le_eq_filter {α : Type} (a b : Nat) :
    ∀ l : List (Nat × α), l.Pairwise (fun x y => x.1 < y.1) →
      (∀ x ∈ l, b ≤ x.1) →
      l.takeWhile (fun kv => decide (kv.1 ≤ a))
        = l.filter (fun kv => decide (b ≤ kv.1) && decide (kv.1 ≤ a)) := by
  intro l
  induction l with
  | nil => intro _ _; rfl
  | cons hd tl ih =>
    intro hp hall
    rw [List.pairwise_cons] at hp
    obtain ⟨hhd, htl⟩ := hp
    have hb : b ≤ hd.1 := hall hd (List.mem_cons_self _ _)
    by_cases ha : hd.1 ≤ a
    · simp [List.takeWhile_cons, List.filter_cons, ha, hb,
        ih htl (fun x hx => hall x (List.mem_cons_of_mem _ hx))]
    · have htail : ∀ x ∈ tl, ¬ x.1 ≤ a := by
        intro x hx
        have := hhd x hx
        omega
      simp [List.takeWhile_cons, List.filter_cons, ha]
      intro k v hkv _
      have h2 : ¬ k ≤ a := htail (k, v) hkv
      omega

/-- On a strictly ascending association list, walking from
lower-bound(b) while key ≤ a visits exactly the entries with
b ≤ key ≤ a. -/
theorem dropWhile_takeWhile_eq_filter {α : Type} (a b : Nat) :
    ∀ l : List (Nat × α), l.Pairwise (fun x y => x.1 < y.1) →
      ((l.dropWhile (fun kv => decide (kv.1 < b))).takeWhile
          (fun kv => decide (kv.1 ≤ a)))
        = l.filter (fun kv => decide (b ≤ kv.1) && decide (kv.1 ≤ a)) := by
  intro l
  induction l with
  | nil => intro _; rfl
  | cons hd tl ih =>
    intro hp
    rw [List.pairwise_cons] at hp
    obtain ⟨hhd, htl⟩ := hp
    by_cases hb : hd.1 < b
    · have hnb : ¬ b ≤ hd.1 := by omega
      simp [List.dropWhile_cons, List.filter_cons, hb, hnb]
      exact ih htl
    · have hble : b ≤ hd.1 := by omega
      simp [List.dropWhile_cons, hb]
      exact takeWhile_le_eq_filter a b (hd :: tl)
        (List.pairwise_cons.mpr ⟨hhd, htl⟩)
        (fun x hx => by
          rcases List.mem_cons.mp hx with rfl | hx
          · exact hble
          · exact le_of_lt (lt_of_le_of_lt hble (hhd x hx)))

/-- Claim C6: FindCFIFrameInfo returns none when no initial-rules
range covers the address; on a hit (and when the external parser
accepts the initial rule string) it returns the rule set built from
the initial string followed by exactly the delta rules whose keys lie
in [initial_base, address], in ascending key order (the delta map is
strictly ascending by construction). -/
theorem findCFIFrameInfo_composes (parseOk : List Char → Bool) (m : Module)
    (address : Nat)
    (hs : m.cfi_delta_rules_.Pairwise (fun x y => x.1 < y.1)) :
    (retrieveRange m.cfi_initial_rules_ address = none →
      findCFIFrameInfo parseOk m address = none)
  ∧ (∀ e, retrieveRange m.cfi_initial_rules_ address = some e →
      parseOk e.value = true →
      findCFIFrameInfo parseOk m address
        = some (e.value ::
            (m.cfi_delta_rules_.filter
                (fun kv => decide (e.base ≤ kv.1) && decide (kv.1 ≤ address))).map
              (fun kv => kv.2))) := by
  constructor
  · intro h
    simp [findCFIFrameInfo, h]
  · intro e h hok
    simp only [findCFIFrameInfo, h, hok, if_true]
    rw [dropWhile_takeWhile_eq_filter address e.base m.cfi_delta_rules_ hs]

/-- Witness for C6: the spec's scenario 4 containers; the query at
0x1030 composes the initial rules with the 0x1010 delta only. -/
theorem findCFIFrameInfo_composes_witness :
    findCFIFrameInfo (fun _ => true) cfiModule 0x1030 = some [cfiIni, cfiDelta1] := by
  have h := (findCFIFrameInfo_composes (fun _ => true) cfiModule 0x1030
      (by decide)).2 ⟨0x1000, 0x100, cfiIni⟩ (by decide) rfl
  exact h.trans (by decide)

/-- Claim C8: in a nonempty buffer with at least one NUL byte before
the trailing run of terminators, every such interior NUL is rewritten
to an underscore (and nothing else changes), the line region contains
no NUL afterwards, and the whole rewriting pass contributes exactly
one counted error: line processing starts with an error count of 1, no
matter how many interior NULs there were. -/
theorem loadMap_interior_nulls (buf : List Char)
    (hmid : (interiorRaw buf).any (fun c => c == '\x00') = true) :
    (∀ i, (interiorRaw buf).get? i = some '\x00' →
      (fixBuffer buf).1.get? i = some '_')
  ∧ (∀ i c, (interiorRaw buf).get? i = some c → c ≠ '\x00' →
      (fixBuffer buf).1.get? i = some c)
  ∧ (∀ c ∈ (fixBuffer buf).1, c ≠ '\x00')
  ∧ (LoadMapFromMemory buf).numErrors
      = (processLines (splitLines (fixBuffer buf).1) { numErrors := 1 }).numErrors := by
  refine ⟨?_, ?_, ?_, ?_⟩
  · intro i hi
    rw [List.get?_eq_getElem?] at hi ⊢
    simp only [fixBuffer, List.getElem?_map, hi]
    rfl
  · intro i c hi hc
    rw [List.get?_eq_getElem?] at hi ⊢
    simp only [fixBuffer, List.getElem?_map, hi]
    simp [hc]
  · intro c hc
    simp only [fixBuffer, List.mem_map] at hc
    obtain ⟨a, _, rfl⟩ := hc
    by_cases h : a = '\x00'
    · simp [h]
    · simp [h]
  · have hne : buf ≠ [] := by
      intro h
      rw [h] at hmid
      simp [interiorRaw] at hmid
    cases buf with
    | nil => exact absurd rfl hne
    | cons c t =>
      simp only [LoadMapFromMemory, fixBuffer]
      simp [hmid]

/-- Witness for C8: the buffer "a\0b\n" has one interior NUL; its
error count is the line-phase count started at 1. -/
theorem loadMap_interior_nulls_witness :
    (LoadMapFromMemory nulBuf).numErrors
      = (processLines (splitLines (fixBuffer nulBuf).1) { numErrors := 1 }).numErrors :=
  (loadMap_interior_nulls nulBuf (by decide)).2.2.2

end google_breakpad
